import Mathlib

/-!
# Odisha School Finder: the browser script `script.js`

A shallow embedding of the script's data model and functions, followed by the
properties proved about them.

JavaScript strings are embedded as `String`, arrays as `List`, and the values
that JSON decoding can put into a record field as `JSVal`.  What the script
takes from its host (the collation behind `localeCompare`, Unicode lower-casing,
number formatting) is a parameter, `Host`.
-/

namespace SchoolFinder

/-! ## Values -/

/-- A JavaScript number: an IEEE double is NaN, an infinity, or a finite value; every
finite double is a rational, and the order of finite doubles is the order of those
rationals. -/
inductive JSNumber where
  | nan
  | negInf
  | posInf
  | fin (q : ℚ)
  deriving DecidableEq

/-- A value found in a record field.  `obj text` is an array or object, of which the
script can only observe that it is truthy and what `String(v)` gives (`text`). -/
inductive JSVal where
  | undefined
  | null
  | bool (b : Bool)
  | num (n : JSNumber)
  | str (s : String)
  | obj (text : String)
  deriving DecidableEq

/-- What the script uses from the browser and the ECMAScript library. -/
structure Host where
  /-- Model of `a.localeCompare(b)`: negative, zero or positive. -/
  localeCompare : String → String → Int
  /-- Model of `s.toLowerCase()`. -/
  toLowerCase : String → String
  /-- Model of `String(n)` for a number. -/
  numberToString : JSNumber → String
  /-- Model of `n.toFixed(1)`. -/
  toFixed1 : JSNumber → String

/-- The double quote and the apostrophe. -/
def dquote : Char := Char.ofNat 34

def apos : Char := Char.ofNat 39

/-- Model of `String(v)`, also the conversion a template literal applies. -/
def toJSString (h : Host) : JSVal → String
  | .undefined => "undefined"
  | .null => "null"
  | .bool true => "true"
  | .bool false => "false"
  | .num n => h.numberToString n
  | .str s => s
  | .obj text => text

/-- Model of `Boolean(v)`. -/
def truthy : JSVal → Bool
  | .undefined => false
  | .null => false
  | .bool b => b
  | .num .nan => false
  | .num (.fin q) => decide (q ≠ 0)
  | .num _ => true
  | .str s => decide (s ≠ "")
  | .obj _ => true

/-- Model of `a || b`. -/
def orElse (a b : JSVal) : JSVal := if truthy a then a else b

/-! ## `escapeHTML` -/

/-- Model of `s.replace(/c/g, rep)` for a one-character pattern: every occurrence of `c`
is replaced by `rep`. -/
def replaceAll (c : Char) (rep : String) (s : String) : String :=
  ⟨s.data.flatMap fun x => if x = c then rep.data else [x]⟩

/-- Embedding of `escapeHTML(str)`: five global replacements in the source's order. -/
def escapeHTML (h : Host) (str : JSVal) : String :=
  replaceAll apos "&#039;"
    (replaceAll dquote "&quot;"
      (replaceAll '>' "&gt;"
        (replaceAll '<' "&lt;"
          (replaceAll '&' "&amp;" (toJSString h str)))))

/-- The specification's character map: each of the five characters goes to its entity,
every other character to itself. -/
def specEscapeChar (c : Char) : List Char :=
  if c = '&' then "&amp;".data
  else if c = '<' then "&lt;".data
  else if c = '>' then "&gt;".data
  else if c = dquote then "&quot;".data
  else if c = apos then "&#039;".data
  else [c]

/-- The five entities `escapeHTML` produces. -/
def entities : List (List Char) :=
  ["&amp;".data, "&lt;".data, "&gt;".data, "&quot;".data, "&#039;".data]

/-- The four characters that can open or close a tag or an attribute value. -/
def isMarkupChar (c : Char) : Bool :=
  c == '<' || c == '>' || c == dquote || c == apos

/-- Every `&` of `out` starts one of the five entities. -/
def AmpsStartEntities (out : List Char) : Prop :=
  ∀ pre suf, out = pre ++ '&' :: suf → ∃ e ∈ entities, e <+: '&' :: suf

/-! ## `encodeURI` -/

/-- The characters `encodeURI` leaves as they are: the reserved set `;/?:@&=+$,`, the
letters and digits, the marks `-_.!~*'()` and `#`. -/
def uriUnescaped (c : Char) : Bool :=
  c.isAlphanum || "-_.!~*'();/?:@&=+$,#".data.contains c

/-- The UTF-8 bytes of a character. -/
def utf8Bytes (c : Char) : List Nat :=
  let n := c.toNat
  if n < 128 then [n]
  else if n < 2048 then [192 + n / 64, 128 + n % 64]
  else if n < 65536 then [224 + n / 4096, 128 + n / 64 % 64, 128 + n % 64]
  else [240 + n / 262144, 128 + n / 4096 % 64, 128 + n / 64 % 64, 128 + n % 64]

def hexDigit (n : Nat) : Char := "0123456789ABCDEF".data.getD n '0'

/-- One byte as `%XX`. -/
def percentByte (b : Nat) : List Char := ['%', hexDigit (b / 16), hexDigit (b % 16)]

/-- Model of `encodeURI(s)`.  A `String` holds no lone surrogate, the one input on which
the JavaScript function throws. -/
def encodeURI (s : String) : String :=
  ⟨s.data.flatMap fun c => if uriUnescaped c then [c] else (utf8Bytes c).flatMap percentByte⟩

/-! ## Records and their markup -/

/-- A school record as decoded from the server's JSON: an object whose fields may hold
any value or be absent (`undefined`). -/
structure SchoolRecord where
  id : JSVal := .undefined
  name : JSVal := .undefined
  city : JSVal := .undefined
  district : JSVal := .undefined
  board : JSVal := .undefined
  type : JSVal := .undefined
  rating : JSVal := .undefined
  contact : JSVal := .undefined
  address : JSVal := .undefined
  website : JSVal := .undefined
  deriving DecidableEq

/-- Which record data a substitution of a template reads. -/
inductive Source where
  | id
  | name
  | location
  | board
  | type
  | rating
  | contact
  | address
  | website
  deriving DecidableEq

/-- A template literal, piece by piece: its literal text and its substitutions. -/
inductive Seg where
  | lit (text : String)
  | sub (src : Source) (text : String)
  deriving DecidableEq

/-- The string a template literal evaluates to. -/
def render (segs : List Seg) : String :=
  segs.foldl (fun acc seg => match seg with
    | .lit t => acc ++ t
    | .sub _ t => acc ++ t) ""

/-- Model of `typeof school.rating === 'number' && !Number.isNaN(school.rating)`. -/
def hasRating (school : SchoolRecord) : Bool :=
  match school.rating with
  | .num .nan => false
  | .num _ => true
  | _ => false

/-- Model of `[school.city, school.district].filter(Boolean).join(', ')`. -/
def locationText (h : Host) (school : SchoolRecord) : String :=
  String.intercalate ", " (([school.city, school.district].filter truthy).map (toJSString h))

/-- Model of the `school.rating.toFixed(1)` badge, present when `hasRating`. -/
def ratingBadge (h : Host) (school : SchoolRecord) : List Seg :=
  match school.rating with
  | .num n =>
    if hasRating school then
      [.lit "<div class=\"school-badge\"><i class=\"fas fa-star\"></i> ",
       .sub .rating (h.toFixed1 n),
       .lit "</div>"]
    else []
  | _ => []

/-- Embedding of the markup `createSchoolCard(school)` assigns to `card.innerHTML`. -/
def createSchoolCard (h : Host) (school : SchoolRecord) : List Seg :=
  [.lit "\n    <div class=\"school-header\">\n      "] ++
  ratingBadge h school ++
  [.lit "\n      <h3 class=\"school-name\">",
   .sub .name (escapeHTML h (orElse school.name (.str ""))),
   .lit "</h3>\n      <div class=\"school-location\">\n        <i class=\"fas fa-map-marker-alt\"></i>\n        <span>",
   .sub .location (escapeHTML h (.str (locationText h school))),
   .lit "</span>\n      </div>\n    </div>\n    <div class=\"school-details\">\n      <div class=\"school-info\">\n        <i class=\"fas fa-graduation-cap\"></i>\n        <span>",
   .sub .board (escapeHTML h (orElse school.board (.str "—"))),
   .lit "</span>\n      </div>\n      <div class=\"school-info\">\n        <i class=\"fas fa-building\"></i>\n        <span>",
   .sub .type (escapeHTML h (orElse school.type (.str "—"))),
   .lit "</span>\n      </div>\n      <div class=\"school-info\">\n        <i class=\"fas fa-phone\"></i>\n        <span>",
   .sub .contact (escapeHTML h (orElse school.contact (.str "—"))),
   .lit "</span>\n      </div>\n      <button class=\"view-more-btn\" data-id=\"",
   .sub .id (toJSString h school.id),
   .lit "\">\n        <i class=\"fas fa-info-circle\"></i> View More Details\n      </button>\n    </div>\n  "]

/-- The website link of the detail view, present when `s.website` is truthy. -/
def websiteLink (h : Host) (s : SchoolRecord) : List Seg :=
  if truthy s.website then
    [.lit "<a href=\"",
     .sub .website (encodeURI (toJSString h s.website)),
     .lit "\" target=\"_blank\" rel=\"noopener\" class=\"website-link\">\n               <i class=\"fas fa-globe\"></i> Visit Website\n             </a>"]
  else []

/-- Embedding of the markup `showSchoolDetails` assigns to `modalBody.innerHTML` once the
record `s` has been fetched. -/
def showSchoolDetails (h : Host) (s : SchoolRecord) : List Seg :=
  [.lit "\n      <h2 class=\"modal-school-name\">",
   .sub .name (escapeHTML h (orElse s.name (.str ""))),
   .lit "</h2>\n      <div class=\"modal-school-info\">\n        <p><i class=\"fas fa-map-marker-alt\"></i> <strong>Location:</strong> ",
   .sub .location (escapeHTML h (.str (locationText h s))),
   .lit "</p>\n        <p><i class=\"fas fa-graduation-cap\"></i> <strong>Board:</strong> ",
   .sub .board (escapeHTML h (orElse s.board (.str "—"))),
   .lit "</p>\n        <p><i class=\"fas fa-building\"></i> <strong>Type:</strong> ",
   .sub .type (escapeHTML h (orElse s.type (.str "—"))),
   .lit "</p>\n        <p><i class=\"fas fa-address-card\"></i> <strong>Address:</strong> ",
   .sub .address (escapeHTML h (orElse s.address (.str "—"))),
   .lit "</p>\n        <p><i class=\"fas fa-phone\"></i> <strong>Contact:</strong> ",
   .sub .contact (escapeHTML h (orElse s.contact (.str "—"))),
   .lit "</p>\n      </div>\n      "] ++
  websiteLink h s ++
  [.lit "\n    "]

/-- A substitution's text holds none of `<`, `>`, the double quote, the apostrophe. -/
def MarkupFree (text : String) : Prop := ∀ x ∈ text.data, isMarkupChar x = false

instance (text : String) : Decidable (MarkupFree text) := by
  unfold MarkupFree; infer_instance

/-! ## A host for evaluating examples -/

/-- Comparison by code point, character by character. -/
def codePointCompare : List Char → List Char → Int
  | [], [] => 0
  | [], _ :: _ => -1
  | _ :: _, [] => 1
  | a :: as, b :: bs =>
    if a.toNat < b.toNat then -1
    else if b.toNat < a.toNat then 1
    else codePointCompare as bs

/-- The text of `x.toFixed(1)` for a finite `x` below `10^21` in absolute value: the
nearest multiple of one tenth, ties upwards, with the sign of `x`. -/
def toFixed1Rat (q : ℚ) : String :=
  let n := (⌊|q| * 10 + 1 / 2⌋).toNat
  let body := toString (n / 10) ++ "." ++ toString (n % 10)
  if q < 0 then "-" ++ body else body

/-- A host with code-point collation and ASCII lower-casing.  Its number formatting is
that of JavaScript for NaN, the infinities, integers below `10^21` and, for `toFixed1`,
every finite value below `10^21`; `numberToString` of another finite value is the
numeral of its integer part, which no example below evaluates. -/
def sampleHost : Host where
  localeCompare a b := codePointCompare a.data b.data
  toLowerCase s := ⟨s.data.map Char.toLower⟩
  numberToString
    | .nan => "NaN"
    | .negInf => "-Infinity"
    | .posInf => "Infinity"
    | .fin q => toString ⌊q⌋
  toFixed1
    | .nan => "NaN"
    | .negInf => "-Infinity"
    | .posInf => "Infinity"
    | .fin q => toFixed1Rat q

/-- A record whose id and website carry markup characters. -/
def xssRecord : SchoolRecord :=
  { id := .str "\"><script>alert(1)</script>",
    name := .str "<script>alert(2)</script>",
    website := .str "https://example.org/o'neil" }

/-! ## Sorting -/

/-- An exception thrown by the script or rejected by a fetch. -/
inductive JSError where
  | typeError
  | fetchFailed
  deriving DecidableEq

/-- What `Array.prototype.sort` looks at in the number a comparator returns: whether it
is negative, zero, positive or NaN. -/
inductive CmpVal where
  | neg
  | zero
  | pos
  | nan
  deriving DecidableEq

/-- The sign class of an integer. -/
def CmpVal.ofInt (i : Int) : CmpVal :=
  if i < 0 then .neg else if 0 < i then .pos else .zero

/-- The sign class of the double `x - y`.  For finite `x` and `y` the rounded difference
has the sign of the exact one; an infinity minus itself, and anything with NaN, is NaN. -/
def subSign : JSNumber → JSNumber → CmpVal
  | .nan, _ => .nan
  | _, .nan => .nan
  | .posInf, .posInf => .nan
  | .negInf, .negInf => .nan
  | .posInf, _ => .pos
  | _, .posInf => .neg
  | .negInf, _ => .neg
  | _, .negInf => .pos
  | .fin x, .fin y => if x < y then .neg else if y < x then .pos else .zero

/-- Model of `typeof a.rating === 'number' ? a.rating : -Infinity`. -/
def ratingOrNegInf (a : SchoolRecord) : JSNumber :=
  match a.rating with
  | .num n => n
  | _ => .negInf

/-- The comparator of the `rating` branch: `rb - ra`. -/
def compareRating (a b : SchoolRecord) : Except JSError CmpVal :=
  .ok (subSign (ratingOrNegInf b) (ratingOrNegInf a))

/-- Model of the template string the `location` branch builds and lower-cases. -/
def locationKey (h : Host) (a : SchoolRecord) : String :=
  h.toLowerCase
    (toJSString h (orElse a.city (.str "")) ++ " " ++ toJSString h (orElse a.district (.str "")))

/-- The comparator of the `location` branch: `la.localeCompare(lb)`. -/
def compareLocation (h : Host) (a b : SchoolRecord) : Except JSError CmpVal :=
  .ok (CmpVal.ofInt (h.localeCompare (locationKey h a) (locationKey h b)))

/-- The comparator of the `name` branch: `(a.name || '').localeCompare(b.name || '')`.
The receiver has a `localeCompare` method only when it is a string; the argument is
converted to a string. -/
def compareName (h : Host) (a b : SchoolRecord) : Except JSError CmpVal :=
  match orElse a.name (.str "") with
  | .str s => .ok (CmpVal.ofInt (h.localeCompare s (toJSString h (orElse b.name (.str "")))))
  | _ => .error .typeError

/-- Insertion of `a` into a sorted list, before the first element that does not compare
below it.  A comparator value that is not positive (NaN included, which `sort` reads as
zero) leaves `a` in front. -/
def orderedInsertM {α : Type} (cmp : α → α → Except JSError CmpVal) (a : α) :
    List α → Except JSError (List α)
  | [] => .ok [a]
  | b :: l =>
    match cmp a b with
    | .error e => .error e
    | .ok .pos =>
      match orderedInsertM cmp a l with
      | .error e => .error e
      | .ok l1 => .ok (b :: l1)
    | .ok _ => .ok (a :: b :: l)

/-- Model of `copy.sort(cmp)`: a stable insertion sort.  The language leaves the
algorithm open but requires stability, so for a comparator that is a consistent order
every engine returns this list; an exception in the comparator ends the sort. -/
def arraySort {α : Type} (cmp : α → α → Except JSError CmpVal) : List α → Except JSError (List α)
  | [] => .ok []
  | a :: l =>
    match arraySort cmp l with
    | .error e => .error e
    | .ok s => orderedInsertM cmp a s

/-- The value passed as `arr`, and the body of a listing response: an array of records
(its elements are objects), or something `Array.isArray` rejects. -/
inductive Body where
  | notArray
  | array (items : List SchoolRecord)
  deriving DecidableEq

/-- Embedding of `sortSchools(arr, by)`, on values. -/
def sortSchools (h : Host) (arr : Body) (by_ : String) : Except JSError (List SchoolRecord) :=
  let copy := match arr with
    | .array items => items
    | .notArray => []
  if by_ = "rating" then arraySort compareRating copy
  else if by_ = "location" then arraySort (compareLocation h) copy
  else arraySort (compareName h) copy

/-- The requirements the language puts on a consistent comparator, for the host's
collation: swapping the operands swaps the sign, and the order is transitive. -/
structure Host.Consistent (h : Host) : Prop where
  antisymm : ∀ a b, h.localeCompare a b < 0 ↔ 0 < h.localeCompare b a
  trans : ∀ a b c, h.localeCompare a b ≤ 0 → h.localeCompare b c ≤ 0 →
    h.localeCompare a c ≤ 0

/-- The string the `name` branch compares: `a.name || ''`, as a string. -/
def nameKey (h : Host) (a : SchoolRecord) : String :=
  toJSString h (orElse a.name (.str ""))

/-- The name of the record is a string, or falsy (absent, `null`, empty, ...). -/
def nameIsText (a : SchoolRecord) : Bool :=
  match orElse a.name (.str "") with
  | .str _ => true
  | _ => false

/-- The order `sort` reads off a comparator value: not positive means "stays in front". -/
def notAfter {α : Type} (f : α → α → CmpVal) (a b : α) : Prop := f a b ≠ .pos

instance {α : Type} (f : α → α → CmpVal) : DecidableRel (notAfter f) := by
  intro a b; unfold notAfter; infer_instance

/-- The records of the specification's `name` example: names `B`, `A` and the empty
string. -/
def namedB : SchoolRecord := { id := .num (.fin 1), name := .str "B" }

def namedA : SchoolRecord := { id := .num (.fin 2), name := .str "A" }

def namedEmpty : SchoolRecord := { id := .num (.fin 3), name := .str "" }

/-- Records for the `location` example: two spellings of one city, and two other
cities. -/
def inLowerBhubaneswar : SchoolRecord :=
  { id := .num (.fin 1), name := .str "P", city := .str "bhubaneswar", district := .str "Khordha" }

def inCuttack : SchoolRecord :=
  { id := .num (.fin 2), name := .str "Q", city := .str "Cuttack" }

def inUpperBhubaneswar : SchoolRecord :=
  { id := .num (.fin 3), name := .str "R", city := .str "Bhubaneswar", district := .str "KHORDHA" }

def inAngul : SchoolRecord :=
  { id := .num (.fin 4), name := .str "S", city := .str "Angul", district := .str "Angul" }

/-- The place of a rating in the descending order of the `rating` branch, for a rating
that is not NaN: a missing rating and `-Infinity` are lowest. -/
def ratingRank (a : SchoolRecord) : WithBot (WithTop ℚ) :=
  match ratingOrNegInf a with
  | .nan => ⊥
  | .negInf => ⊥
  | .posInf => ((⊤ : WithTop ℚ) : WithBot (WithTop ℚ))
  | .fin q => ((q : WithTop ℚ) : WithBot (WithTop ℚ))

/-- Records for the `rating` examples. -/
def rated32 : SchoolRecord := { id := .num (.fin 1), name := .str "P", rating := .num (.fin 3.2) }

def unrated : SchoolRecord := { id := .num (.fin 2), name := .str "Q" }

def rated48 : SchoolRecord := { id := .num (.fin 3), name := .str "R", rating := .num (.fin 4.8) }

def ratedNaN : SchoolRecord := { id := .num (.fin 4), name := .str "S", rating := .num .nan }

def ratedNegInf : SchoolRecord :=
  { id := .num (.fin 5), name := .str "T", rating := .num .negInf }

/-! ## `sortSchools` on the heap

Arrays are objects: `arr.slice()` allocates a new array and `copy.sort` reorders the
array it is called on, in place.  The heap model makes both explicit. -/

/-- A reference to an array object. -/
abbrev Ref := Nat

/-- The array objects allocated so far, by reference. -/
structure Heap where
  arrays : List (List SchoolRecord)
  deriving DecidableEq

/-- The elements of the array at `r`, if `r` is allocated. -/
def Heap.read (hp : Heap) (r : Ref) : Option (List SchoolRecord) := hp.arrays[r]?

/-- A new array object with the given elements. -/
def Heap.alloc (hp : Heap) (xs : List SchoolRecord) : Heap × Ref :=
  (⟨hp.arrays ++ [xs]⟩, hp.arrays.length)

/-- Overwrite the elements of the array at `r`. -/
def Heap.write (hp : Heap) (r : Ref) (xs : List SchoolRecord) : Heap :=
  ⟨hp.arrays.set r xs⟩

/-- The argument `arr` of `sortSchools`: a reference to an array, or a value that
`Array.isArray` rejects. -/
inductive ArrArg where
  | ref (r : Ref)
  | notArray
  deriving DecidableEq

/-- The comparator `sortSchools` picks for `by`. -/
def comparatorFor (h : Host) (by_ : String) : SchoolRecord → SchoolRecord → Except JSError CmpVal :=
  if by_ = "rating" then compareRating
  else if by_ = "location" then compareLocation h
  else compareName h

/-- Embedding of `sortSchools(arr, by)` with its effect on the heap: `arr.slice()` (or
`[]`) is allocated as `copy`, `copy` is sorted in place, and its reference returned. -/
def sortSchoolsHeap (h : Host) (hp : Heap) (arr : ArrArg) (by_ : String) :
    Except JSError (Heap × Ref) :=
  let fresh := match arr with
    | .ref r => hp.alloc ((hp.read r).getD [])
    | .notArray => hp.alloc []
  match arraySort (comparatorFor h by_) ((fresh.1.read fresh.2).getD []) with
  | .error e => .error e
  | .ok sorted => .ok (fresh.1.write fresh.2 sorted, fresh.2)

/-- A heap holding one array, the `name` example. -/
def sampleHeap : Heap := ⟨[[namedB, namedA, namedEmpty]]⟩

/-! ## The page: state, rendering, fetches -/

/-- Embedding of `SCHOOLS_PER_PAGE`. -/
def SCHOOLS_PER_PAGE : Nat := 6

/-- The content of the `schoolsList` element. -/
inductive View where
  /-- The static page, before the script has written to the element. -/
  | initial
  /-- Written by `showLoading`. -/
  | loading
  /-- Written by `showError`. -/
  | error (message : String)
  /-- The "No schools found" block of `displaySchools`. -/
  | noResults
  /-- The cards `displaySchools` appended, and the Show More button if it added one; the
  button's click handler holds the list `schools` it was created for. -/
  | cards (cards : List (List Seg)) (showMore : Option (List SchoolRecord))
  deriving DecidableEq

/-- The cards in the view. -/
def View.cardList : View → List (List Seg)
  | .cards cs _ => cs
  | _ => []

/-- Whether the view holds a Show More button. -/
def View.hasShowMore : View → Bool
  | .cards _ (some _) => true
  | _ => false

/-- A listing fetch in flight, with the function that awaits it. -/
inductive Pending where
  | loadAll
  | search (params : List (String × String))
  deriving DecidableEq

/-- The module's variables and the parts of the document the script reads and writes. -/
structure AppState where
  currentSchools : List SchoolRecord := []
  displayedSchoolsCount : Nat := SCHOOLS_PER_PAGE
  searchInput : String := ""
  cityFilter : String := ""
  boardFilter : String := ""
  typeFilter : String := ""
  /-- The value of the sort selector; `none` when the page has no such element.  The
  page's markup is not part of the script; the selector is taken to start at `name`. -/
  sortFilter : Option String := some "name"
  resultsCount : String := ""
  schoolsList : View := .initial
  /-- The listing fetches not yet settled, oldest first. -/
  pending : List Pending := []
  deriving DecidableEq

/-- What a `fetch` of a listing URL settles to. -/
inductive Response where
  /-- The `fetch` promise rejects. -/
  | networkError
  /-- A response with its status; `body` is `none` when the body is not JSON. -/
  | http (status : Nat) (body : Option Body)
  deriving DecidableEq

/-- Embedding of `fetchJSON`: rejects on a network error, on a status outside 200 to
299 (`!res.ok`), and on a body `res.json()` cannot parse. -/
def fetchJSON (r : Response) : Except JSError Body :=
  match r with
  | .networkError => .error .fetchFailed
  | .http status body =>
    if ¬ (200 ≤ status ∧ status ≤ 299) then .error .fetchFailed
    else match body with
      | none => .error .fetchFailed
      | some b => .ok b

/-- Model of `sortFilter?.value || 'name'`. -/
def sortValue (st : AppState) : String :=
  match st.sortFilter with
  | some v => if v ≠ "" then v else "name"
  | none => "name"

/-- Embedding of `showLoading()`. -/
def showLoading (st : AppState) : AppState := { st with schoolsList := .loading }

/-- Embedding of `showError(message)`. -/
def showError (st : AppState) (message : String) : AppState :=
  { st with schoolsList := .error message }

/-- Embedding of `displaySchools(schools)`. -/
def displaySchools (h : Host) (st : AppState) (schools : List SchoolRecord) : AppState :=
  let st1 := { st with
    resultsCount := toString schools.length ++ " " ++
      (if schools.length = 1 then "school" else "schools") ++ " found" }
  if schools.length = 0 then { st1 with schoolsList := .noResults }
  else
    let toDisplay := schools.take st1.displayedSchoolsCount
    let showMore := if schools.length > st1.displayedSchoolsCount then some schools else none
    { st1 with schoolsList := View.cards (List.map (createSchoolCard h) toDisplay) showMore }

/-- The click handler of the Show More button created for `schools`. -/
def showMoreClick (h : Host) (st : AppState) (schools : List SchoolRecord) : AppState :=
  displaySchools h
    { st with displayedSchoolsCount := st.displayedSchoolsCount + SCHOOLS_PER_PAGE } schools

/-- Embedding of `loadAllSchools()` up to its `await`. -/
def loadAllSchools (st : AppState) : AppState :=
  let st1 := showLoading st
  { st1 with displayedSchoolsCount := SCHOOLS_PER_PAGE, pending := st1.pending ++ [.loadAll] }

/-- The characters `String.prototype.trim` removes: white space and line terminators. -/
def isJSWhiteSpace (c : Char) : Bool :=
  [9, 10, 11, 12, 13, 32, 160, 5760, 8232, 8233, 8239, 8287, 12288, 65279].contains c.toNat ||
    (8192 ≤ c.toNat && c.toNat ≤ 8202)

/-- Model of `s.trim()`. -/
def jsTrim (s : String) : String :=
  ⟨((s.data.dropWhile isJSWhiteSpace).reverse.dropWhile isJSWhiteSpace).reverse⟩

/-- The pairs `searchSchools` appends to its `URLSearchParams`, in order. -/
def searchParams (name city board type : String) : List (String × String) :=
  (if name ≠ "" then [("name", name)] else []) ++
  (if city ≠ "" then [("city", city)] else []) ++
  (if board ≠ "" then [("board", board)] else []) ++
  (if type ≠ "" then [("type", type)] else [])

/-- Embedding of `searchSchools(name, city, board, type)` up to its `await`. -/
def searchSchools (st : AppState) (name city board type : String) : AppState :=
  let st1 := showLoading st
  { st1 with pending := st1.pending ++ [.search (searchParams name city board type)] }

/-- Embedding of `handleSearch()`. -/
def handleSearch (st : AppState) : AppState :=
  let name := jsTrim st.searchInput
  let city := st.cityFilter
  let board := st.boardFilter
  let type := st.typeFilter
  searchSchools { st with displayedSchoolsCount := SCHOOLS_PER_PAGE } name city board type

/-- Embedding of `resetFilters()`.  Assigning to `sortFilter.value` throws when the page
has no sort selector, after the four filters have been cleared. -/
def resetFilters (st : AppState) : AppState :=
  let st1 := { st with searchInput := "", cityFilter := "", boardFilter := "", typeFilter := "" }
  match st1.sortFilter with
  | none => st1
  | some _ =>
    loadAllSchools { st1 with sortFilter := some "name", displayedSchoolsCount := SCHOOLS_PER_PAGE }

/-- The message `loadAllSchools` or `searchSchools` shows when its `try` block throws. -/
def failureMessage : Pending → String
  | .loadAll => "Failed to load schools."
  | .search _ => "Failed to search schools."

/-- The rest of `loadAllSchools` or `searchSchools` once the fetch has settled: on a
rejection, or an exception in `sortSchools`, the `catch` block shows an error; otherwise
the sorted list is stored and displayed. -/
def settle (h : Host) (st : AppState) (p : Pending) (r : Response) : AppState :=
  match fetchJSON r with
  | .error _ => showError st (failureMessage p)
  | .ok data =>
    match sortSchools h data (sortValue st) with
    | .error _ => showError st (failureMessage p)
    | .ok sorted => displaySchools h { st with currentSchools := sorted } sorted

/-- The handler of the sort selector's `change` event, the selector now holding `v`. -/
def sortChange (h : Host) (st : AppState) (v : String) : AppState :=
  match st.sortFilter with
  | none => st
  | some _ =>
    let st1 := { st with sortFilter := some v }
    match sortSchools h (.array st1.currentSchools) v with
    | .error _ => st1
    | .ok sorted => displaySchools h { st1 with currentSchools := sorted } sorted

/-- What can happen to the page. -/
inductive Event where
  /-- `DOMContentLoaded`: the initial `loadAllSchools()`. -/
  | pageLoad
  /-- The user edits a filter field. -/
  | typeSearch (text : String)
  | pickCity (value : String)
  | pickBoard (value : String)
  | pickType (value : String)
  /-- The search button, or Enter in a filter field. -/
  | search
  /-- A footer city link; `value` is what the city selector holds after the assignment. -/
  | footerCity (value : String)
  /-- The reset button. -/
  | reset
  /-- The sort selector changes to `value`. -/
  | sortChange (value : String)
  /-- A click on the Show More button, if the view holds one. -/
  | showMore
  /-- The `i`-th fetch in flight settles. -/
  | fetchDone (i : Nat) (r : Response)
  /-- Another part of the script (filter options, detail view) calls `showError`. -/
  | otherError (message : String)
  deriving DecidableEq

/-- One event. -/
def step (h : Host) (st : AppState) : Event → AppState
  | .pageLoad => loadAllSchools st
  | .typeSearch text => { st with searchInput := text }
  | .pickCity v => { st with cityFilter := v }
  | .pickBoard v => { st with boardFilter := v }
  | .pickType v => { st with typeFilter := v }
  | .search => handleSearch st
  | .footerCity v =>
    handleSearch { st with cityFilter := v, displayedSchoolsCount := SCHOOLS_PER_PAGE }
  | .reset => resetFilters st
  | .sortChange v => sortChange h st v
  | .showMore =>
    match st.schoolsList with
    | .cards _ (some schools) => showMoreClick h st schools
    | _ => st
  | .fetchDone i r =>
    match st.pending[i]? with
    | none => st
    | some p => settle h { st with pending := st.pending.eraseIdx i } p r
  | .otherError message => showError st message

/-- A sequence of events. -/
def run (h : Host) (st : AppState) (evs : List Event) : AppState := evs.foldl (step h) st

/-- The page when the script starts. -/
def initialState : AppState := {}

/-- Eight records, for the pagination example. -/
def eightSchools : List SchoolRecord :=
  ["A", "B", "C", "D", "E", "F", "G", "H"].map fun n => { id := .str n, name := .str n }

/-- The four filter fields of the search example: a padded name, no city, a board, no
type. -/
def filledFilters : AppState :=
  { searchInput := "  DAV  ", cityFilter := "", boardFilter := "CBSE", typeFilter := "" }

/-- A name field holding white space only. -/
def blankName : AppState := { searchInput := " \t ", cityFilter := "Cuttack" }

/-- A settled fetch fails: `fetchJSON` rejects, or `sortSchools` throws on the data. -/
def FetchFails (h : Host) (st : AppState) (r : Response) : Prop :=
  (∃ e, fetchJSON r = .error e) ∨
    ∃ data e, fetchJSON r = .ok data ∧ sortSchools h data (sortValue st) = .error e

/-- The events whose handlers lead to `loadAllSchools` or `searchSchools`. -/
def Event.startsFetch : Event → Bool
  | .pageLoad => true
  | .search => true
  | .footerCity _ => true
  | .reset => true
  | _ => false

/-- A page showing one school, with a load in flight. -/
def oneSchoolLoading : AppState :=
  { currentSchools := [namedA], schoolsList := .loading, pending := [.loadAll] }

/-- A response whose records have names that are neither strings nor falsy, on which
the `name` comparator throws. -/
def objectNames : Response :=
  .http 200 (some (.array [{ name := .obj "[object Object]" }, { name := .bool true }]))

/-- A successful response with the eight example records. -/
def eightResponse : Response := .http 200 (some (.array eightSchools))

/-- The race: a search starts while the initial load is in flight; the load settles and
shows six of eight cards with a Show More button; the user clicks it. -/
def raceTrace : List Event :=
  [.pageLoad, .search, .fetchDone 0 eightResponse, .showMore]

/-! # Properties -/

/-! ## Lemmas on `escapeHTML` -/

theorem escape_pointwise (x : Char) :
    (((([x].flatMap fun x => if x = '&' then "&amp;".data else [x]).flatMap
      fun x => if x = '<' then "&lt;".data else [x]).flatMap
      fun x => if x = '>' then "&gt;".data else [x]).flatMap
      fun x => if x = dquote then "&quot;".data else [x]).flatMap
      (fun x => if x = apos then "&#039;".data else [x]) = specEscapeChar x := by
  unfold specEscapeChar
  by_cases h1 : x = '&'
  · subst h1; decide
  by_cases h2 : x = '<'
  · subst h2; decide
  by_cases h3 : x = '>'
  · subst h3; decide
  by_cases h4 : x = dquote
  · subst h4; decide
  by_cases h5 : x = apos
  · subst h5; decide
  simp [h1, h2, h3, h4, h5]

theorem escapeHTML_data (h : Host) (v : JSVal) :
    (escapeHTML h v).data = (toJSString h v).data.flatMap specEscapeChar := by
  simp only [escapeHTML, replaceAll, List.flatMap_assoc]
  apply List.flatMap_congr
  intro x _
  have := escape_pointwise x
  simpa [List.flatMap_assoc] using this

theorem specEscapeChar_no_markup (c x : Char) (hx : x ∈ specEscapeChar c) :
    isMarkupChar x = false := by
  unfold specEscapeChar at hx
  split_ifs at hx with h1 h2 h3 h4 h5
  · revert x; decide
  · revert x; decide
  · revert x; decide
  · revert x; decide
  · revert x; decide
  · simp at hx
    subst hx
    simp [isMarkupChar, h2, h3, h4, h5]

theorem escapeHTML_no_markup (h : Host) (v : JSVal) :
    ∀ x ∈ (escapeHTML h v).data, isMarkupChar x = false := by
  intro x hx
  rw [escapeHTML_data, List.mem_flatMap] at hx
  obtain ⟨c, _, hc⟩ := hx
  exact specEscapeChar_no_markup c x hc

theorem specEscapeChar_shape (c : Char) :
    (specEscapeChar c = [c] ∧ c ≠ '&') ∨
    (∃ t, specEscapeChar c = '&' :: t ∧ '&' ∉ t ∧ specEscapeChar c ∈ entities) := by
  unfold specEscapeChar
  split_ifs with h1 h2 h3 h4 h5
  · exact Or.inr ⟨"amp;".data, by decide, by decide, by decide⟩
  · exact Or.inr ⟨"lt;".data, by decide, by decide, by decide⟩
  · exact Or.inr ⟨"gt;".data, by decide, by decide, by decide⟩
  · exact Or.inr ⟨"quot;".data, by decide, by decide, by decide⟩
  · exact Or.inr ⟨"#039;".data, by decide, by decide, by decide⟩
  · exact Or.inl ⟨rfl, h1⟩

theorem amp_split_head (t pre rest : List Char) (hnot : '&' ∉ t)
    (h : '&' :: t = pre ++ '&' :: rest) : pre = [] := by
  cases pre with
  | nil => rfl
  | cons p ps =>
    simp only [List.cons_append, List.cons.injEq] at h
    exact absurd (h.2 ▸ (by simp : '&' ∈ ps ++ '&' :: rest)) hnot

theorem flatMap_specEscape_amps (l : List Char) :
    AmpsStartEntities (l.flatMap specEscapeChar) := by
  induction l with
  | nil =>
    intro pre suf h
    simp at h
  | cons c cs ih =>
    intro pre suf h
    rw [List.flatMap_cons, List.append_eq_append_iff] at h
    rcases h with ⟨a, _, ha⟩ | ⟨b, hb, hsuf⟩
    · exact ih a suf ha
    · cases b with
      | nil =>
        simp only [List.nil_append] at hsuf
        exact ih [] suf (by simpa using hsuf.symm)
      | cons b0 bs =>
        simp only [List.cons_append, List.cons.injEq] at hsuf
        obtain ⟨hb0, hbs⟩ := hsuf
        subst hb0
        rcases specEscapeChar_shape c with ⟨h1, h2⟩ | ⟨t, ht, hnot, hmem⟩
        · rw [h1] at hb
          cases pre with
          | nil => simp at hb; exact absurd hb.1 h2
          | cons p ps => simp at hb
        · have hpre : pre = [] := amp_split_head t pre bs hnot (by rw [← ht]; exact hb)
          subst hpre
          refine ⟨specEscapeChar c, hmem, ?_⟩
          rw [hb, hbs]
          simp

theorem escapeHTML_amps (h : Host) (v : JSVal) : AmpsStartEntities (escapeHTML h v).data := by
  rw [escapeHTML_data]
  exact flatMap_specEscape_amps _

/-- C2: for every string `s`, `escapeHTML(s)` is the character-by-character map of `s`
that sends `&`, `<`, `>`, the double quote and the apostrophe to their entities and
leaves every other character unchanged; the output holds none of `<`, `>`, the double
quote or the apostrophe, and every `&` in it starts one of the five entities. -/
theorem escapeHTML_is_charwise_map (h : Host) (s : String) :
    escapeHTML h (.str s) = ⟨s.data.flatMap specEscapeChar⟩ ∧
    (∀ x ∈ (escapeHTML h (.str s)).data, x ≠ '<' ∧ x ≠ '>' ∧ x ≠ dquote ∧ x ≠ apos) ∧
    AmpsStartEntities (escapeHTML h (.str s)).data := by
  refine ⟨?_, ?_, escapeHTML_amps h _⟩
  · have := escapeHTML_data h (.str s)
    cases hs : escapeHTML h (.str s) with
    | mk d => rw [hs] at this; exact congrArg String.mk (by simpa [toJSString] using this)
  · intro x hx
    have := escapeHTML_no_markup h _ x hx
    simp only [isMarkupChar, Bool.or_eq_false_iff, beq_eq_false_iff_ne] at this
    exact ⟨this.1.1.1, this.1.1.2, this.1.2, this.2⟩

/-! ## Markup of a card and of the detail view -/

theorem hexDigit_mem (n : Nat) : hexDigit n ∈ "00123456789ABCDEF".data := by
  unfold hexDigit
  rw [List.getD_eq_getElem?_getD]
  cases h : "0123456789ABCDEF".data[n]? with
  | none => decide
  | some a =>
    have hm := List.getElem?_mem h
    simp only [Option.getD_some]
    exact List.mem_cons_of_mem _ hm

theorem percentByte_safe (b : Nat) (x : Char) (hx : x ∈ percentByte b) :
    x ≠ '<' ∧ x ≠ '>' ∧ x ≠ dquote := by
  have key : ∀ y ∈ "%00123456789ABCDEF".data, y ≠ '<' ∧ y ≠ '>' ∧ y ≠ dquote := by decide
  apply key
  simp only [percentByte, List.mem_cons, List.mem_singleton, List.not_mem_nil, or_false] at hx
  rcases hx with rfl | rfl | rfl
  · decide
  · exact List.mem_cons_of_mem _ (hexDigit_mem _)
  · exact List.mem_cons_of_mem _ (hexDigit_mem _)

theorem encodeURI_safe (s : String) :
    ∀ x ∈ (encodeURI s).data, x ≠ '<' ∧ x ≠ '>' ∧ x ≠ dquote := by
  intro x hx
  simp only [encodeURI, List.mem_flatMap] at hx
  obtain ⟨c, _, hc⟩ := hx
  split_ifs at hc with hu
  · simp only [List.mem_singleton] at hc
    subst hc
    refine ⟨?_, ?_, ?_⟩ <;> (intro h; subst h; revert hu; decide)
  · rw [List.mem_flatMap] at hc
    obtain ⟨b, _, hb⟩ := hc
    exact percentByte_safe b x hb

theorem escapeHTML_markupFree (h : Host) (v : JSVal) : MarkupFree (escapeHTML h v) :=
  escapeHTML_no_markup h v

theorem createSchoolCard_subs (h : Host) (school : SchoolRecord) (src : Source) (t : String)
    (hmem : Seg.sub src t ∈ createSchoolCard h school) :
    src = .rating ∨ (src = .id ∧ t = toJSString h school.id) ∨ ∃ v, t = escapeHTML h v := by
  simp only [createSchoolCard, List.mem_append, List.mem_cons, List.mem_singleton,
    List.not_mem_nil, or_false, Seg.sub.injEq, false_or, reduceCtorEq, false_and] at hmem
  rcases hmem with hb | ⟨_, rfl⟩ | ⟨_, rfl⟩ | ⟨_, rfl⟩ | ⟨_, rfl⟩ | ⟨_, rfl⟩ | ⟨rfl, rfl⟩
  · left
    unfold ratingBadge at hb
    split at hb
    · split_ifs at hb
      · simp at hb; exact hb.1
      · simp at hb
    · simp at hb
  all_goals first
    | exact Or.inr (Or.inr ⟨_, rfl⟩)
    | exact Or.inr (Or.inl ⟨rfl, rfl⟩)

theorem showSchoolDetails_subs (h : Host) (s : SchoolRecord) (src : Source) (t : String)
    (hmem : Seg.sub src t ∈ showSchoolDetails h s) :
    (src = .website ∧ t = encodeURI (toJSString h s.website)) ∨
      (src ≠ .website ∧ ∃ v, t = escapeHTML h v) := by
  simp only [showSchoolDetails, List.mem_append, List.mem_cons, List.mem_singleton,
    List.not_mem_nil, or_false, Seg.sub.injEq, false_or, reduceCtorEq, false_and] at hmem
  rcases hmem with (⟨rfl, rfl⟩ | ⟨rfl, rfl⟩ | ⟨rfl, rfl⟩ | ⟨rfl, rfl⟩ | ⟨rfl, rfl⟩ | ⟨rfl, rfl⟩) | hw
  all_goals first
    | exact Or.inr ⟨by decide, _, rfl⟩
    | skip
  left
  unfold websiteLink at hw
  split_ifs at hw
  · simp at hw; exact ⟨hw.1, hw.2⟩
  · simp at hw

/-- C1, as stated, fails: the card puts the id into `data-id` as it is, so an id holding
`"><script>` reaches the markup raw, and the detail view passes the website through
`encodeURI`, which keeps an apostrophe. -/
theorem markup_raw_id_and_website :
    (Seg.sub .id "\"><script>alert(1)</script>" ∈ createSchoolCard sampleHost xssRecord ∧
      ¬ MarkupFree "\"><script>alert(1)</script>") ∧
    (Seg.sub .website "https://example.org/o'neil" ∈ showSchoolDetails sampleHost xssRecord ∧
      ¬ MarkupFree "https://example.org/o'neil") := by
  refine ⟨⟨?_, by decide⟩, ⟨?_, by decide⟩⟩
  · simp [createSchoolCard, xssRecord, toJSString]
  · have h1 : truthy xssRecord.website = true := by decide
    have h2 : encodeURI (toJSString sampleHost xssRecord.website) = "https://example.org/o'neil" := by
      decide
    simp [showSchoolDetails, websiteLink, h1, h2]

set_option maxRecDepth 20000 in
/-- The card of `xssRecord` as a string: the name is escaped, the id is not. -/
theorem createSchoolCard_xss_rendered :
    render (createSchoolCard sampleHost xssRecord) =
    "\n    <div class=\"school-header\">\n      \n      <h3 class=\"school-name\">&lt;script&gt;alert(2)&lt;/script&gt;</h3>\n      <div class=\"school-location\">\n        <i class=\"fas fa-map-marker-alt\"></i>\n        <span></span>\n      </div>\n    </div>\n    <div class=\"school-details\">\n      <div class=\"school-info\">\n        <i class=\"fas fa-graduation-cap\"></i>\n        <span>—</span>\n      </div>\n      <div class=\"school-info\">\n        <i class=\"fas fa-building\"></i>\n        <span>—</span>\n      </div>\n      <div class=\"school-info\">\n        <i class=\"fas fa-phone\"></i>\n        <span>—</span>\n      </div>\n      <button class=\"view-more-btn\" data-id=\"\"><script>alert(1)</script>\">\n        <i class=\"fas fa-info-circle\"></i> View More Details\n      </button>\n    </div>\n  " := by
  rfl

/-- C1 (amended): in the markup of `createSchoolCard` and of `showSchoolDetails`, every
substitution that reads the name, the location (city and district), the board, the type,
the contact or the address is an `escapeHTML` output: it holds no `<`, `>`, double quote
or apostrophe, and each `&` in it starts an entity.  The website goes through `encodeURI`
and holds no `<`, `>` or double quote. -/
theorem markup_fields_escaped (h : Host) (school : SchoolRecord) (src : Source) (t : String)
    (hmem : Seg.sub src t ∈ createSchoolCard h school ∨
      Seg.sub src t ∈ showSchoolDetails h school)
    (hid : src ≠ .id) (hrating : src ≠ .rating) :
    (src ≠ .website → MarkupFree t ∧ AmpsStartEntities t.data) ∧
    (∀ x ∈ t.data, x ≠ '<' ∧ x ≠ '>' ∧ x ≠ dquote) := by
  have free_imp : MarkupFree t → ∀ x ∈ t.data, x ≠ '<' ∧ x ≠ '>' ∧ x ≠ dquote := by
    intro hf x hx
    have := hf x hx
    simp only [isMarkupChar, Bool.or_eq_false_iff, beq_eq_false_iff_ne] at this
    exact ⟨this.1.1.1, this.1.1.2, this.1.2⟩
  rcases hmem with hc | hd
  · rcases createSchoolCard_subs h school src t hc with hr | ⟨hi, _⟩ | ⟨v, rfl⟩
    · exact absurd hr hrating
    · exact absurd hi hid
    · exact ⟨fun _ => ⟨escapeHTML_markupFree h v, escapeHTML_amps h v⟩,
        free_imp (escapeHTML_markupFree h v)⟩
  · rcases showSchoolDetails_subs h school src t hd with ⟨hw, rfl⟩ | ⟨_, v, rfl⟩
    · exact ⟨fun hne => absurd hw hne, encodeURI_safe _⟩
    · exact ⟨fun _ => ⟨escapeHTML_markupFree h v, escapeHTML_amps h v⟩,
        free_imp (escapeHTML_markupFree h v)⟩

/-- The name of `xssRecord` reaches the card with its `<script>` escaped. -/
theorem markup_fields_escaped_witness :
    Seg.sub .name "&lt;script&gt;alert(2)&lt;/script&gt;" ∈ createSchoolCard sampleHost xssRecord ∧
    ((Source.name ≠ .website → MarkupFree "&lt;script&gt;alert(2)&lt;/script&gt;" ∧
        AmpsStartEntities "&lt;script&gt;alert(2)&lt;/script&gt;".data) ∧
      (∀ x ∈ "&lt;script&gt;alert(2)&lt;/script&gt;".data, x ≠ '<' ∧ x ≠ '>' ∧ x ≠ dquote)) := by
  have hmem : Seg.sub .name "&lt;script&gt;alert(2)&lt;/script&gt;" ∈
      createSchoolCard sampleHost xssRecord := by
    have h2 : escapeHTML sampleHost (orElse xssRecord.name (.str "")) =
        "&lt;script&gt;alert(2)&lt;/script&gt;" := by decide
    simp [createSchoolCard, h2]
  exact ⟨hmem, markup_fields_escaped sampleHost xssRecord .name _ (Or.inl hmem)
    (by decide) (by decide)⟩

/-! ## The sort: general lemmas -/

theorem orderedInsertM_ok {α : Type} (cmp : α → α → Except JSError CmpVal)
    (f : α → α → CmpVal) (P : α → Prop)
    (hf : ∀ a b, P a → P b → cmp a b = .ok (f a b)) (a : α) (ha : P a) :
    ∀ l : List α, (∀ x ∈ l, P x) →
      orderedInsertM cmp a l = .ok (l.orderedInsert (notAfter f) a) := by
  intro l
  induction l with
  | nil => intro _; rfl
  | cons b l ih =>
    intro hl
    have hb : P b := hl b (List.mem_cons_self _ _)
    have hl1 : ∀ x ∈ l, P x := fun x hx => hl x (List.mem_cons_of_mem _ hx)
    rw [orderedInsertM, hf a b ha hb]
    by_cases hpos : f a b = .pos
    · rw [hpos]
      simp only [ih hl1]
      rw [List.orderedInsert, if_neg (by simp [notAfter, hpos])]
    · rw [List.orderedInsert, if_pos (by simpa [notAfter] using hpos)]
      cases hv : f a b <;> simp_all

theorem arraySort_ok {α : Type} (cmp : α → α → Except JSError CmpVal)
    (f : α → α → CmpVal) (P : α → Prop)
    (hf : ∀ a b, P a → P b → cmp a b = .ok (f a b)) :
    ∀ l : List α, (∀ x ∈ l, P x) →
      arraySort cmp l = .ok (l.insertionSort (notAfter f)) := by
  intro l
  induction l with
  | nil => intro _; rfl
  | cons a l ih =>
    intro hl
    have ha : P a := hl a (List.mem_cons_self _ _)
    have hl1 : ∀ x ∈ l, P x := fun x hx => hl x (List.mem_cons_of_mem _ hx)
    rw [arraySort, ih hl1]
    simp only [List.insertionSort]
    exact orderedInsertM_ok cmp f P hf a ha _
      (fun x hx => hl1 x ((List.mem_insertionSort _).1 hx))

theorem filter_orderedInsert {α : Type} (r : α → α → Prop) [DecidableRel r] (p : α → Bool)
    (a : α) : ∀ l : List α, (∀ y ∈ l, ¬ r a y → p a = true → p y = false) →
      (l.orderedInsert r a).filter p = (a :: l).filter p := by
  intro l
  induction l with
  | nil => intro _; rfl
  | cons b l ih =>
    intro hl
    by_cases hab : r a b
    · rw [List.orderedInsert, if_pos hab]
    · rw [List.orderedInsert, if_neg hab, List.filter_cons,
        ih (fun y hy => hl y (List.mem_cons_of_mem _ hy))]
      have hb := hl b (List.mem_cons_self _ _) hab
      cases hpa : p a
      · simp [List.filter_cons, hpa]
      · simp [List.filter_cons, hpa, hb hpa]

theorem filter_insertionSort {α : Type} (r : α → α → Prop) [DecidableRel r] (p : α → Bool)
    (hp : ∀ a y, ¬ r a y → p a = true → p y = false) :
    ∀ l : List α, (l.insertionSort r).filter p = l.filter p := by
  intro l
  induction l with
  | nil => rfl
  | cons a l ih =>
    rw [List.insertionSort, filter_orderedInsert r p a _ (fun y _ => hp a y),
      List.filter_cons, List.filter_cons, ih]

theorem Host.Consistent.total {h : Host} (hc : h.Consistent) (a b : String) :
    h.localeCompare a b ≤ 0 ∨ h.localeCompare b a ≤ 0 := by
  by_cases hab : h.localeCompare a b ≤ 0
  · exact Or.inl hab
  · right
    have := (hc.antisymm b a).2 (by omega)
    omega

theorem Host.Consistent.symm_zero {h : Host} (hc : h.Consistent) (a b : String)
    (hab : h.localeCompare a b = 0) : h.localeCompare b a = 0 := by
  have h1 := hc.antisymm a b
  have h2 := hc.antisymm b a
  omega

theorem Host.Consistent.refl {h : Host} (hc : h.Consistent) (a : String) :
    h.localeCompare a a = 0 := by
  have h1 := hc.antisymm a a
  omega

theorem ofInt_ne_pos (i : Int) : CmpVal.ofInt i ≠ .pos ↔ i ≤ 0 := by
  unfold CmpVal.ofInt
  split_ifs <;> simp <;> omega

/-- Sorting with a key and the host's collation: the result is a permutation, ascending
in the collation, and keeps the input order inside every class of keys that compare
equal. -/
theorem insertionSort_by_key {α : Type} (h : Host) (hc : h.Consistent) (key : α → String)
    (l : List α) :
    let out := l.insertionSort
      (notAfter fun a b => CmpVal.ofInt (h.localeCompare (key a) (key b)))
    out.Perm l ∧
    out.Sorted (fun a b => h.localeCompare (key a) (key b) ≤ 0) ∧
    ∀ k : String, out.filter (fun x => decide (h.localeCompare (key x) k = 0)) =
      l.filter (fun x => decide (h.localeCompare (key x) k = 0)) := by
  intro out
  have hrel : ∀ a b, notAfter (fun a b => CmpVal.ofInt (h.localeCompare (key a) (key b))) a b ↔
      h.localeCompare (key a) (key b) ≤ 0 := fun a b => ofInt_ne_pos _
  refine ⟨List.perm_insertionSort _ l, ?_, ?_⟩
  · have htot : IsTotal α
        (notAfter fun a b => CmpVal.ofInt (h.localeCompare (key a) (key b))) :=
      ⟨fun a b => by rw [hrel, hrel]; exact hc.total _ _⟩
    have htr : IsTrans α
        (notAfter fun a b => CmpVal.ofInt (h.localeCompare (key a) (key b))) :=
      ⟨fun a b c => by rw [hrel, hrel, hrel]; exact hc.trans _ _ _⟩
    have hs := List.sorted_insertionSort
      (notAfter fun a b => CmpVal.ofInt (h.localeCompare (key a) (key b))) l
    exact hs.imp (fun {a b} hab => (hrel a b).1 hab)
  · intro k
    apply filter_insertionSort
    intro a y hay hpa
    rw [hrel] at hay
    simp only [decide_eq_true_eq] at hpa
    simp only [decide_eq_false_iff_not]
    intro hyk
    have hky := hc.symm_zero _ _ hyk
    exact hay (hc.trans _ _ _ (le_of_eq hpa) (le_of_eq hky))

/-! ## The sample host is consistent -/

theorem codePointCompare_antisymm :
    ∀ a b : List Char, codePointCompare a b < 0 ↔ 0 < codePointCompare b a := by
  intro a
  induction a with
  | nil => intro b; cases b <;> simp [codePointCompare]
  | cons x xs ih =>
    intro b
    cases b with
    | nil => simp [codePointCompare]
    | cons y ys =>
      simp only [codePointCompare]
      have := ih ys
      split_ifs <;> omega

theorem codePointCompare_trans :
    ∀ a b c : List Char, codePointCompare a b ≤ 0 → codePointCompare b c ≤ 0 →
      codePointCompare a c ≤ 0 := by
  intro a
  induction a with
  | nil => intro b c _ _; cases c <;> simp [codePointCompare]
  | cons x xs ih =>
    intro b c
    cases b with
    | nil => simp [codePointCompare]
    | cons y ys =>
      cases c with
      | nil => simp [codePointCompare]
      | cons z zs =>
        simp only [codePointCompare]
        have := ih ys zs
        split_ifs <;> omega

theorem sampleHost_consistent : sampleHost.Consistent :=
  ⟨fun a b => codePointCompare_antisymm a.data b.data,
   fun a b c => codePointCompare_trans a.data b.data c.data⟩

/-! ## Sorting by name and by location -/

theorem compareName_of_text (h : Host) (a b : SchoolRecord) (ha : nameIsText a = true) :
    compareName h a b = .ok (CmpVal.ofInt (h.localeCompare (nameKey h a) (nameKey h b))) := by
  unfold nameIsText at ha
  unfold compareName nameKey
  split at ha
  · next s hs => rw [hs]; rfl
  · exact absurd ha (by simp)

/-- C8: for every list of records whose names are strings or missing, and a host whose
collation is a consistent order, `sortSchools(list, 'name')` returns the records in
ascending order of the comparison on the name, a missing name counting as the empty
string. -/
theorem sortSchools_name_ascending (h : Host) (hc : h.Consistent) (l : List SchoolRecord)
    (hn : ∀ x ∈ l, nameIsText x = true) :
    ∃ out, sortSchools h (.array l) "name" = .ok out ∧ out.Perm l ∧
      out.Sorted (fun a b => h.localeCompare (nameKey h a) (nameKey h b) ≤ 0) ∧
      ∀ a : SchoolRecord, truthy a.name = false → nameKey h a = "" := by
  have hs : sortSchools h (.array l) "name" = arraySort (compareName h) l := by
    simp [sortSchools]
  have hok := arraySort_ok (compareName h)
    (fun a b => CmpVal.ofInt (h.localeCompare (nameKey h a) (nameKey h b)))
    (fun a => nameIsText a = true)
    (fun a b ha _ => compareName_of_text h a b ha) l hn
  have key := insertionSort_by_key h hc (nameKey h) l
  refine ⟨_, hs.trans hok, key.1, key.2.1, ?_⟩
  intro a ha
  simp [nameKey, orElse, ha, toJSString]

/-- The specification's example: names `B`, `A`, empty come out as empty, `A`, `B`. -/
theorem sortSchools_name_ascending_witness :
    (∀ x ∈ [namedB, namedA, namedEmpty], nameIsText x = true) ∧
    sortSchools sampleHost (.array [namedB, namedA, namedEmpty]) "name" =
      .ok [namedEmpty, namedA, namedB] ∧
    ∃ out, sortSchools sampleHost (.array [namedB, namedA, namedEmpty]) "name" = .ok out ∧
      out.Perm [namedB, namedA, namedEmpty] ∧
      out.Sorted (fun a b =>
        sampleHost.localeCompare (nameKey sampleHost a) (nameKey sampleHost b) ≤ 0) ∧
      ∀ a : SchoolRecord, truthy a.name = false → nameKey sampleHost a = "" :=
  ⟨by decide, by rfl,
    sortSchools_name_ascending sampleHost sampleHost_consistent
      [namedB, namedA, namedEmpty] (by decide)⟩

/-- C7: for every list of records and a host whose collation is a consistent order,
`sortSchools(list, 'location')` returns the records in ascending order of the lower-cased
key `city + ' ' + district` (a missing part counting as the empty string); records
whose keys are equal after lower-casing compare as equal, and records that compare as
equal keep their input order. -/
theorem sortSchools_location_ascending_stable (h : Host) (hc : h.Consistent)
    (l : List SchoolRecord) :
    ∃ out, sortSchools h (.array l) "location" = .ok out ∧ out.Perm l ∧
      out.Sorted (fun a b => h.localeCompare (locationKey h a) (locationKey h b) ≤ 0) ∧
      (∀ k : String, out.filter (fun x => decide (h.localeCompare (locationKey h x) k = 0)) =
        l.filter (fun x => decide (h.localeCompare (locationKey h x) k = 0))) ∧
      (∀ a b : SchoolRecord, locationKey h a = locationKey h b →
        compareLocation h a b = .ok .zero) ∧
      (∀ a : SchoolRecord, locationKey h a = h.toLowerCase
        ((if truthy a.city then toJSString h a.city else "") ++ " " ++
          (if truthy a.district then toJSString h a.district else ""))) := by
  have hs : sortSchools h (.array l) "location" = arraySort (compareLocation h) l := by
    simp [sortSchools]
  have hok := arraySort_ok (compareLocation h)
    (fun a b => CmpVal.ofInt (h.localeCompare (locationKey h a) (locationKey h b)))
    (fun _ => True) (fun a b _ _ => rfl) l (fun _ _ => trivial)
  have key := insertionSort_by_key h hc (locationKey h) l
  refine ⟨_, hs.trans hok, key.1, key.2.1, key.2.2, ?_, ?_⟩
  · intro a b hab
    simp [compareLocation, hab, hc.refl, CmpVal.ofInt]
  · intro a
    unfold locationKey orElse
    split_ifs <;> rfl

/-- The two spellings of Bhubaneswar stay in input order, after Angul and before
Cuttack. -/
theorem sortSchools_location_ascending_stable_witness :
    sortSchools sampleHost
        (.array [inLowerBhubaneswar, inCuttack, inUpperBhubaneswar, inAngul]) "location" =
      .ok [inAngul, inLowerBhubaneswar, inUpperBhubaneswar, inCuttack] ∧
    sortSchools sampleHost
        (.array [inUpperBhubaneswar, inCuttack, inLowerBhubaneswar, inAngul]) "location" =
      .ok [inAngul, inUpperBhubaneswar, inLowerBhubaneswar, inCuttack] ∧
    ∃ out, sortSchools sampleHost
        (.array [inLowerBhubaneswar, inCuttack, inUpperBhubaneswar, inAngul]) "location" =
        .ok out ∧
      out.Perm [inLowerBhubaneswar, inCuttack, inUpperBhubaneswar, inAngul] ∧
      out.Sorted (fun a b => sampleHost.localeCompare (locationKey sampleHost a)
        (locationKey sampleHost b) ≤ 0) ∧
      (∀ k : String,
        out.filter (fun x => decide (sampleHost.localeCompare (locationKey sampleHost x) k = 0)) =
        [inLowerBhubaneswar, inCuttack, inUpperBhubaneswar, inAngul].filter
          (fun x => decide (sampleHost.localeCompare (locationKey sampleHost x) k = 0))) ∧
      (∀ a b : SchoolRecord, locationKey sampleHost a = locationKey sampleHost b →
        compareLocation sampleHost a b = .ok .zero) ∧
      (∀ a : SchoolRecord, locationKey sampleHost a = sampleHost.toLowerCase
        ((if truthy a.city then toJSString sampleHost a.city else "") ++ " " ++
          (if truthy a.district then toJSString sampleHost a.district else ""))) :=
  ⟨by rfl, by rfl,
    sortSchools_location_ascending_stable sampleHost sampleHost_consistent
      [inLowerBhubaneswar, inCuttack, inUpperBhubaneswar, inAngul]⟩

/-! ## Sorting by rating -/

theorem orderedInsert_congr {α : Type} (r s : α → α → Prop) [DecidableRel r] [DecidableRel s]
    (a : α) : ∀ l : List α, (∀ y ∈ l, r a y ↔ s a y) →
      l.orderedInsert r a = l.orderedInsert s a := by
  intro l
  induction l with
  | nil => intro _; rfl
  | cons b l ih =>
    intro hl
    have hb := hl b (List.mem_cons_self _ _)
    have ih1 := ih (fun y hy => hl y (List.mem_cons_of_mem _ hy))
    by_cases hab : r a b
    · rw [List.orderedInsert, if_pos hab, List.orderedInsert, if_pos (hb.1 hab)]
    · rw [List.orderedInsert, if_neg hab, List.orderedInsert, if_neg (fun hs => hab (hb.2 hs)), ih1]

theorem insertionSort_congr {α : Type} (r s : α → α → Prop) [DecidableRel r] [DecidableRel s] :
    ∀ l : List α, (∀ a ∈ l, ∀ b ∈ l, r a b ↔ s a b) →
      l.insertionSort r = l.insertionSort s := by
  intro l
  induction l with
  | nil => intro _; rfl
  | cons a l ih =>
    intro hl
    have ih1 := ih (fun x hx y hy => hl x (List.mem_cons_of_mem _ hx) y (List.mem_cons_of_mem _ hy))
    rw [List.insertionSort, List.insertionSort, ih1]
    apply orderedInsert_congr
    intro y hy
    exact hl a (List.mem_cons_self _ _) y
      (List.mem_cons_of_mem _ ((List.mem_insertionSort _).1 hy))

theorem subSign_ne_pos_iff (a b : SchoolRecord)
    (ha : ratingOrNegInf a ≠ .nan) (hb : ratingOrNegInf b ≠ .nan) :
    subSign (ratingOrNegInf b) (ratingOrNegInf a) ≠ .pos ↔ ratingRank b ≤ ratingRank a := by
  unfold ratingRank
  cases hx : ratingOrNegInf a <;> cases hy : ratingOrNegInf b <;>
    simp [subSign, hx, hy] at *
  · rename_i x y
    split_ifs with h1 h2
    · simp; exact le_of_lt h1
    · simp; exact h2
    · simp; exact le_of_not_lt h2

/-- On records none of whose ratings is NaN, the `rating` branch returns a permutation
in non-increasing order of rating, a missing rating being lowest. -/
theorem sortSchools_rating_descending (h : Host) (l : List SchoolRecord)
    (hn : ∀ x ∈ l, ratingOrNegInf x ≠ .nan) :
    ∃ out, sortSchools h (.array l) "rating" = .ok out ∧ out.Perm l ∧
      out.Sorted (fun a b => ratingRank b ≤ ratingRank a) := by
  have hs : sortSchools h (.array l) "rating" = arraySort compareRating l := by
    simp [sortSchools]
  have hok := arraySort_ok compareRating
    (fun a b => subSign (ratingOrNegInf b) (ratingOrNegInf a))
    (fun _ => True) (fun a b _ _ => rfl) l (fun _ _ => trivial)
  have hcongr := insertionSort_congr
    (notAfter fun a b => subSign (ratingOrNegInf b) (ratingOrNegInf a))
    (fun a b => ratingRank b ≤ ratingRank a) l
    (fun a ha b hb => subSign_ne_pos_iff a b (hn a ha) (hn b hb))
  have htot : IsTotal SchoolRecord (fun a b => ratingRank b ≤ ratingRank a) :=
    ⟨fun a b => le_total _ _⟩
  have htr : IsTrans SchoolRecord (fun a b => ratingRank b ≤ ratingRank a) :=
    ⟨fun a b c hab hbc => le_trans hbc hab⟩
  refine ⟨_, hs.trans hok, List.perm_insertionSort _ l, ?_⟩
  rw [hcongr]
  exact List.sorted_insertionSort _ l

/-- The specification's example: ratings 3.2, missing, 4.8 come out as 4.8, 3.2,
missing. -/
theorem sortSchools_rating_example (h : Host) :
    sortSchools h (.array [rated32, unrated, rated48]) "rating" =
      .ok [rated48, rated32, unrated] := by
  simp [sortSchools, arraySort, orderedInsertM, compareRating, subSign, ratingOrNegInf,
    rated32, unrated, rated48]
  norm_num

/-- C3, the failing inputs: a record whose rating is NaN, which `createSchoolCard` shows
without a rating, stays in front of a record rated 3.2; and a record without a rating
stays in front of one rated `-Infinity`, which `createSchoolCard` shows with a rating. -/
theorem sortSchools_rating_nan_stays_first (h : Host) :
    sortSchools h (.array [ratedNaN, rated32]) "rating" = .ok [ratedNaN, rated32] ∧
    hasRating ratedNaN = false ∧ hasRating rated32 = true ∧
    sortSchools h (.array [unrated, ratedNegInf]) "rating" = .ok [unrated, ratedNegInf] ∧
    hasRating unrated = false ∧ hasRating ratedNegInf = true := by
  refine ⟨by rfl, by rfl, by rfl, by rfl, by rfl, by rfl⟩

/-! ## `sortSchools` returns a new array -/

theorem arraySort_comparatorFor (h : Host) (by_ : String) (l : List SchoolRecord)
    (hcmp : by_ = "rating" ∨ by_ = "location" ∨ ∀ x ∈ l, nameIsText x = true) :
    ∃ out, arraySort (comparatorFor h by_) l = .ok out ∧ out.Perm l := by
  unfold comparatorFor
  by_cases h1 : by_ = "rating"
  · rw [if_pos h1]
    exact ⟨_, arraySort_ok compareRating
      (fun a b => subSign (ratingOrNegInf b) (ratingOrNegInf a))
      (fun _ => True) (fun a b _ _ => rfl) l (fun _ _ => trivial), List.perm_insertionSort _ l⟩
  by_cases h2 : by_ = "location"
  · rw [if_neg h1, if_pos h2]
    exact ⟨_, arraySort_ok (compareLocation h)
      (fun a b => CmpVal.ofInt (h.localeCompare (locationKey h a) (locationKey h b)))
      (fun _ => True) (fun a b _ _ => rfl) l (fun _ _ => trivial), List.perm_insertionSort _ l⟩
  · rw [if_neg h1, if_neg h2]
    have hn : ∀ x ∈ l, nameIsText x = true := by
      rcases hcmp with h | h | h
      · exact absurd h h1
      · exact absurd h h2
      · exact h
    exact ⟨_, arraySort_ok (compareName h)
      (fun a b => CmpVal.ofInt (h.localeCompare (nameKey h a) (nameKey h b)))
      (fun a => nameIsText a = true)
      (fun a b ha _ => compareName_of_text h a b ha) l hn, List.perm_insertionSort _ l⟩

theorem sortSchools_eq_arraySort (h : Host) (l : List SchoolRecord) (by_ : String) :
    sortSchools h (.array l) by_ = arraySort (comparatorFor h by_) l := by
  unfold sortSchools comparatorFor
  split_ifs <;> rfl

/-- C4: for every array of records and every sort key (the names of the records being
strings or missing when the key is `name`), `sortSchools` returns a newly allocated
array that is a permutation of the input, of the same length, and leaves the input
array and every other array as it was. -/
theorem sortSchools_permutation_input_unchanged (h : Host) (hp : Heap) (r : Ref)
    (items : List SchoolRecord) (by_ : String) (hr : hp.read r = some items)
    (hcmp : by_ = "rating" ∨ by_ = "location" ∨ ∀ x ∈ items, nameIsText x = true) :
    ∃ hp1 r1 out, sortSchoolsHeap h hp (.ref r) by_ = .ok (hp1, r1) ∧
      hp.read r1 = none ∧ r1 ≠ r ∧
      hp1.read r1 = some out ∧ sortSchools h (.array items) by_ = .ok out ∧
      out.Perm items ∧ out.length = items.length ∧
      hp1.read r = some items ∧
      ∀ q, hp.read q ≠ none → hp1.read q = hp.read q := by
  obtain ⟨out, hout, hperm⟩ := arraySort_comparatorFor h by_ items hcmp
  have hlt : r < hp.arrays.length := by
    unfold Heap.read at hr
    by_contra hge
    rw [List.getElem?_eq_none (Nat.le_of_not_lt hge)] at hr
    exact absurd hr (by simp)
  have hfresh : ((hp.alloc items).1.read (hp.alloc items).2).getD [] = items := by
    simp [Heap.alloc, Heap.read]
  have hkeep : ∀ q, hp.read q ≠ none →
      ((hp.alloc items).1.write (hp.alloc items).2 out).read q = hp.read q := by
    intro q hq
    have hq1 : q < hp.arrays.length := by
      unfold Heap.read at hq
      by_contra hge
      exact hq (List.getElem?_eq_none (Nat.le_of_not_lt hge))
    simp only [Heap.alloc, Heap.write, Heap.read]
    rw [List.getElem?_set_ne (Nat.ne_of_gt hq1), List.getElem?_append_left hq1]
  refine ⟨(hp.alloc items).1.write (hp.alloc items).2 out, (hp.alloc items).2, out,
    ?_, ?_, ?_, ?_, ?_, hperm, hperm.length_eq, ?_, hkeep⟩
  · simp only [sortSchoolsHeap, hr, Option.getD_some, hfresh, hout]
  · simp [Heap.alloc, Heap.read]
  · exact Nat.ne_of_gt hlt
  · simp [Heap.alloc, Heap.write, Heap.read]
  · rw [sortSchools_eq_arraySort, hout]
  · rw [hkeep r (by rw [hr]; simp), hr]

/-- Sorting the example array by name: the result is a second array, the first is as it
was. -/
theorem sortSchools_permutation_input_unchanged_witness :
    sampleHeap.read 0 = some [namedB, namedA, namedEmpty] ∧
    sortSchoolsHeap sampleHost sampleHeap (.ref 0) "name" =
      .ok (⟨[[namedB, namedA, namedEmpty], [namedEmpty, namedA, namedB]]⟩, 1) ∧
    ∃ hp1 r1 out, sortSchoolsHeap sampleHost sampleHeap (.ref 0) "name" = .ok (hp1, r1) ∧
      sampleHeap.read r1 = none ∧ r1 ≠ 0 ∧
      hp1.read r1 = some out ∧
      sortSchools sampleHost (.array [namedB, namedA, namedEmpty]) "name" = .ok out ∧
      out.Perm [namedB, namedA, namedEmpty] ∧
      out.length = [namedB, namedA, namedEmpty].length ∧
      hp1.read 0 = some [namedB, namedA, namedEmpty] ∧
      ∀ q, sampleHeap.read q ≠ none → hp1.read q = sampleHeap.read q :=
  ⟨by rfl, by rfl,
    sortSchools_permutation_input_unchanged sampleHost sampleHeap 0
      [namedB, namedA, namedEmpty] "name" (by rfl) (Or.inr (Or.inr (by decide)))⟩

/-! ## Pagination -/

/-- C6: for every result list and every page window `W`, `displaySchools` renders the
cards of exactly the first `min W N` records in list order and adds a Show More button
if and only if `N > W`; a click on the button adds 6 to `W` and renders the same list
again, leaving the stored result list as it was. -/
theorem displaySchools_window (h : Host) (st : AppState) (schools : List SchoolRecord) :
    (displaySchools h st schools).schoolsList.cardList =
        (schools.take st.displayedSchoolsCount).map (createSchoolCard h) ∧
    (displaySchools h st schools).schoolsList.cardList.length =
        min st.displayedSchoolsCount schools.length ∧
    ((displaySchools h st schools).schoolsList.hasShowMore = true ↔
        schools.length > st.displayedSchoolsCount) ∧
    (displaySchools h st schools).displayedSchoolsCount = st.displayedSchoolsCount ∧
    (displaySchools h st schools).currentSchools = st.currentSchools ∧
    (schools.length > st.displayedSchoolsCount →
      step h (displaySchools h st schools) .showMore =
          displaySchools h
            { displaySchools h st schools with
              displayedSchoolsCount := st.displayedSchoolsCount + 6 } schools ∧
      (step h (displaySchools h st schools) .showMore).displayedSchoolsCount =
          st.displayedSchoolsCount + 6 ∧
      (step h (displaySchools h st schools) .showMore).schoolsList.cardList =
          (schools.take (st.displayedSchoolsCount + 6)).map (createSchoolCard h) ∧
      (step h (displaySchools h st schools) .showMore).currentSchools = st.currentSchools) := by
  by_cases h0 : schools.length = 0
  · have hnil : schools = [] := List.length_eq_zero.mp h0
    subst hnil
    simp [displaySchools, View.cardList, View.hasShowMore]
  · have hview : (displaySchools h st schools).schoolsList =
        View.cards ((schools.take st.displayedSchoolsCount).map (createSchoolCard h))
          (if schools.length > st.displayedSchoolsCount then some schools else none) := by
      simp [displaySchools, h0]
    have hcount : (displaySchools h st schools).displayedSchoolsCount =
        st.displayedSchoolsCount := by
      simp [displaySchools, h0]
    have hcur : (displaySchools h st schools).currentSchools = st.currentSchools := by
      simp [displaySchools, h0]
    refine ⟨by rw [hview]; rfl, by rw [hview]; simp [View.cardList], ?_, hcount, hcur, ?_⟩
    · rw [hview]
      by_cases hgt : schools.length > st.displayedSchoolsCount
      · simp [View.hasShowMore, hgt]
      · simp [View.hasShowMore, hgt]
    · intro hgt
      have hstep : step h (displaySchools h st schools) .showMore =
          displaySchools h
            { displaySchools h st schools with
              displayedSchoolsCount := st.displayedSchoolsCount + 6 } schools := by
        simp only [step, hview, if_pos hgt, showMoreClick, hcount, SCHOOLS_PER_PAGE]
      refine ⟨hstep, ?_, ?_, ?_⟩
      · rw [hstep]; simp [displaySchools, h0]
      · rw [hstep]; simp [displaySchools, h0, View.cardList]
      · rw [hstep]; simp [displaySchools, h0]

/-- The specification's example: eight records and a window of 6 give six cards and a
Show More button; one click gives eight cards and no button; an empty list gives no
card. -/
theorem displaySchools_window_witness :
    eightSchools.length > initialState.displayedSchoolsCount ∧
    (displaySchools sampleHost initialState eightSchools).schoolsList.cardList.length = 6 ∧
    (displaySchools sampleHost initialState eightSchools).schoolsList.hasShowMore = true ∧
    (step sampleHost (displaySchools sampleHost initialState eightSchools)
      .showMore).schoolsList.cardList.length = 8 ∧
    (step sampleHost (displaySchools sampleHost initialState eightSchools)
      .showMore).schoolsList.hasShowMore = false ∧
    (displaySchools sampleHost initialState []).schoolsList.cardList = [] ∧
    (displaySchools sampleHost initialState []).schoolsList.hasShowMore = false := by
  have hlen : eightSchools.length = 8 := by decide
  have hw : initialState.displayedSchoolsCount = 6 := rfl
  have hgt : eightSchools.length > initialState.displayedSchoolsCount := by rw [hlen, hw]; omega
  obtain ⟨_, h2, h3, _, _, h6⟩ := displaySchools_window sampleHost initialState eightSchools
  obtain ⟨hstep, _, h8, _⟩ := h6 hgt
  refine ⟨hgt, ?_, h3.2 hgt, ?_, ?_, ?_, ?_⟩
  · rw [h2, hlen, hw]; rfl
  · rw [h8, List.length_map, List.length_take, hlen, hw]; rfl
  · rw [hstep]
    have := (displaySchools_window sampleHost
      { displaySchools sampleHost initialState eightSchools with
        displayedSchoolsCount := initialState.displayedSchoolsCount + 6 } eightSchools).2.2.1
    cases hb : (displaySchools sampleHost
      { displaySchools sampleHost initialState eightSchools with
        displayedSchoolsCount := initialState.displayedSchoolsCount + 6 }
      eightSchools).schoolsList.hasShowMore
    · rfl
    · have hlt := this.1 hb
      simp only [hlen, hw] at hlt
      omega
  · exact (displaySchools_window sampleHost initialState []).1
  · cases hb : (displaySchools sampleHost initialState []).schoolsList.hasShowMore
    · rfl
    · have := ((displaySchools_window sampleHost initialState []).2.2.1).1 hb
      simp at this

/-! ## The search query -/

theorem searchParams_eq_filter (name city board type : String) :
    searchParams name city board type =
      [("name", name), ("city", city), ("board", board), ("type", type)].filter
        (fun kv => decide (kv.2 ≠ "")) := by
  unfold searchParams
  by_cases h1 : name = "" <;> by_cases h2 : city = "" <;> by_cases h3 : board = "" <;>
    by_cases h4 : type = "" <;> simp [h1, h2, h3, h4, List.filter_cons]

theorem jsTrim_blank (s : String) (hs : ∀ c ∈ s.data, isJSWhiteSpace c = true) :
    jsTrim s = "" := by
  have h1 : s.data.dropWhile isJSWhiteSpace = [] := List.dropWhile_eq_nil_iff.2 hs
  simp only [jsTrim, h1, List.reverse_nil, List.dropWhile_nil]

/-- C10: for every four filter values, the search that `handleSearch` starts sends
exactly the pairs, in the order name, city, board, type, whose value is not empty, the
name being trimmed first: a pair is sent if and only if its field is not empty, with
the field's value, and a name of white space only is not sent. -/
theorem handleSearch_sends_nonempty_fields (h : Host) (st : AppState) :
    (step h st .search).pending = st.pending ++
      [.search ([("name", jsTrim st.searchInput), ("city", st.cityFilter),
          ("board", st.boardFilter), ("type", st.typeFilter)].filter
        (fun kv => decide (kv.2 ≠ "")))] ∧
    (∀ k v, (k, v) ∈ searchParams (jsTrim st.searchInput) st.cityFilter st.boardFilter
          st.typeFilter ↔
        (k, v) ∈ [("name", jsTrim st.searchInput), ("city", st.cityFilter),
          ("board", st.boardFilter), ("type", st.typeFilter)] ∧ v ≠ "") ∧
    ((∀ c ∈ st.searchInput.data, isJSWhiteSpace c = true) →
      ∀ v, ("name", v) ∉ searchParams (jsTrim st.searchInput) st.cityFilter st.boardFilter
        st.typeFilter) := by
  refine ⟨?_, ?_, ?_⟩
  · simp only [step, handleSearch, searchSchools, showLoading, searchParams_eq_filter]
  · intro k v
    rw [searchParams_eq_filter, List.mem_filter]
    simp
  · intro hs v hv
    rw [searchParams_eq_filter, List.mem_filter, jsTrim_blank _ hs] at hv
    obtain ⟨hmem, hne⟩ := hv
    simp only [List.mem_cons, Prod.mk.injEq, List.mem_singleton, List.not_mem_nil,
      or_false] at hmem
    rcases hmem with ⟨_, rfl⟩ | ⟨hk, _⟩ | ⟨hk, _⟩ | ⟨hk, _⟩
    · simp at hne
    · exact absurd hk (by decide)
    · exact absurd hk (by decide)
    · exact absurd hk (by decide)

/-- A padded name and a board are sent, trimmed and in order; a blank name is not. -/
theorem handleSearch_sends_nonempty_fields_witness :
    (step sampleHost filledFilters .search).pending =
      [.search [("name", "DAV"), ("board", "CBSE")]] ∧
    (step sampleHost blankName .search).pending = [.search [("city", "Cuttack")]] ∧
    (∀ c ∈ blankName.searchInput.data, isJSWhiteSpace c = true) ∧
    ∀ v, ("name", v) ∉ searchParams (jsTrim blankName.searchInput) blankName.cityFilter
      blankName.boardFilter blankName.typeFilter :=
  ⟨by decide, by decide, by decide,
    (handleSearch_sends_nonempty_fields sampleHost blankName).2.2 (by decide)⟩

/-! ## Failed fetches -/

theorem displaySchools_frame (h : Host) (st : AppState) (schools : List SchoolRecord) :
    (displaySchools h st schools).currentSchools = st.currentSchools ∧
    (displaySchools h st schools).displayedSchoolsCount = st.displayedSchoolsCount ∧
    (displaySchools h st schools).pending = st.pending := by
  unfold displaySchools
  split_ifs <;> simp

theorem settle_of_fails (h : Host) (st : AppState) (p : Pending) (r : Response)
    (hfail : FetchFails h st r) : settle h st p r = showError st (failureMessage p) := by
  unfold settle
  rcases hfail with ⟨e, he⟩ | ⟨data, e, hd, hs⟩
  · rw [he]
  · rw [hd]
    simp only [hs]

theorem startsFetch_keeps_results (h : Host) (st : AppState) (ev : Event)
    (hev : ev.startsFetch = true) : (step h st ev).currentSchools = st.currentSchools := by
  cases ev <;> simp [Event.startsFetch] at hev
  · rfl
  · rfl
  · rfl
  · simp only [step, resetFilters]
    cases st.sortFilter <;> rfl

/-- C9: when a load-all or search fetch fails (the fetch rejects, the status is not 2xx,
the body is not JSON, or `sortSchools` throws on the response), settling it leaves
`currentSchools` as it was and shows the operation's error message; starting the
operation does not touch `currentSchools` either, so after a failed operation the stored
list is the one from before it started. -/
theorem failed_fetch_keeps_results (h : Host) (st : AppState) (ev : Event) (i : Nat)
    (r : Response) (hev : ev.startsFetch = true) (hfail : FetchFails h (step h st ev) r) :
    (step h st ev).currentSchools = st.currentSchools ∧
    (step h (step h st ev) (.fetchDone i r)).currentSchools = st.currentSchools ∧
    (∀ p, (step h st ev).pending[i]? = some p →
      (step h (step h st ev) (.fetchDone i r)).schoolsList = .error (failureMessage p)) ∧
    (∀ st1 : AppState, FetchFails h st1 r →
      (step h st1 (.fetchDone i r)).currentSchools = st1.currentSchools) := by
  have hsettle : ∀ st1 : AppState, FetchFails h st1 r →
      (step h st1 (.fetchDone i r)).currentSchools = st1.currentSchools := by
    intro st1 hf
    simp only [step]
    cases hp : st1.pending[i]? with
    | none => rfl
    | some p =>
      have hf1 : FetchFails h { st1 with pending := st1.pending.eraseIdx i } r := hf
      simp only [settle_of_fails h _ p r hf1]
      rfl
  have hview : ∀ st1 : AppState, FetchFails h st1 r → ∀ p, st1.pending[i]? = some p →
      (step h st1 (.fetchDone i r)).schoolsList = .error (failureMessage p) := by
    intro st1 hf p hp
    have hf1 : FetchFails h { st1 with pending := st1.pending.eraseIdx i } r := hf
    simp only [step, hp, settle_of_fails h _ p r hf1]
    rfl
  have hstart := startsFetch_keeps_results h st ev hev
  exact ⟨hstart, (hsettle _ hfail).trans hstart, hview _ hfail, hsettle⟩

/-- A load that ends in status 500, and a search whose response makes the `name`
comparator throw, both leave the one stored school in place. -/
theorem failed_fetch_keeps_results_witness :
    FetchFails sampleHost (step sampleHost oneSchoolLoading .search) (.http 500 none) ∧
    FetchFails sampleHost (step sampleHost oneSchoolLoading .search) objectNames ∧
    sortSchools sampleHost
        (.array [{ name := .obj "[object Object]" }, { name := .bool true }]) "name" =
      .error .typeError ∧
    (step sampleHost (step sampleHost oneSchoolLoading .search)
      (.fetchDone 1 objectNames)).currentSchools = [namedA] ∧
    (step sampleHost (step sampleHost oneSchoolLoading .search)
      (.fetchDone 0 (.http 500 none))).currentSchools = [namedA] := by
  have hf1 : FetchFails sampleHost (step sampleHost oneSchoolLoading .search)
      (.http 500 none) := Or.inl ⟨.fetchFailed, by rfl⟩
  have hf2 : FetchFails sampleHost (step sampleHost oneSchoolLoading .search) objectNames :=
    Or.inr ⟨_, .typeError, by rfl, by rfl⟩
  exact ⟨hf1, hf2, by rfl,
    (failed_fetch_keeps_results sampleHost oneSchoolLoading .search 1 objectNames
      (by rfl) hf2).2.1,
    (failed_fetch_keeps_results sampleHost oneSchoolLoading .search 0 (.http 500 none)
      (by rfl) hf1).2.1⟩

/-! ## The page window when a result list is stored -/

/-- C5, as stated, fails: a search starts while the initial load is in flight, the load
settles and shows six of eight cards with a Show More button, the user clicks it, and
when the search then settles its list is stored with a page window of 12. -/
theorem pageWindow_twelve_at_store :
    (run sampleHost initialState raceTrace).pending[0]? = some (.search []) ∧
    fetchJSON eightResponse = .ok (.array eightSchools) ∧
    sortSchools sampleHost (.array eightSchools)
      (sortValue (run sampleHost initialState raceTrace)) = .ok eightSchools ∧
    (step sampleHost (run sampleHost initialState raceTrace)
      (.fetchDone 0 eightResponse)).currentSchools = eightSchools ∧
    (step sampleHost (run sampleHost initialState raceTrace)
      (.fetchDone 0 eightResponse)).displayedSchoolsCount = 12 := by
  refine ⟨by rfl, by rfl, by rfl, by rfl, by rfl⟩

theorem step_keeps_window (h : Host) (st : AppState) (ev : Event) (hev : ev ≠ .showMore)
    (hst : st.displayedSchoolsCount = SCHOOLS_PER_PAGE) :
    (step h st ev).displayedSchoolsCount = SCHOOLS_PER_PAGE := by
  cases ev with
  | showMore => exact absurd rfl hev
  | pageLoad => rfl
  | typeSearch _ => exact hst
  | pickCity _ => exact hst
  | pickBoard _ => exact hst
  | pickType _ => exact hst
  | search => rfl
  | footerCity _ => rfl
  | reset =>
    simp only [step, resetFilters]
    cases st.sortFilter with
    | none => exact hst
    | some _ => rfl
  | sortChange v =>
    simp only [step, sortChange]
    cases st.sortFilter with
    | none => exact hst
    | some _ =>
      simp only
      split
      · exact hst
      · rw [(displaySchools_frame h _ _).2.1]; exact hst
  | fetchDone i r =>
    simp only [step]
    split
    · exact hst
    · unfold settle
      split
      · exact hst
      · split
        · exact hst
        · rw [(displaySchools_frame h _ _).2.1]; exact hst
  | otherError _ => exact hst

theorem run_keeps_window (h : Host) (evs : List Event) (hno : Event.showMore ∉ evs) :
    ∀ st : AppState, st.displayedSchoolsCount = SCHOOLS_PER_PAGE →
      (run h st evs).displayedSchoolsCount = SCHOOLS_PER_PAGE := by
  induction evs with
  | nil => intro st hst; exact hst
  | cons ev evs ih =>
    intro st hst
    have hev : ev ≠ .showMore := fun he => hno (he ▸ List.mem_cons_self _ _)
    exact ih (fun hm => hno (List.mem_cons_of_mem _ hm)) _ (step_keeps_window h st ev hev hst)

theorem pending_grows_window (h : Host) (st : AppState) (ev : Event)
    (hstart : (step h st ev).pending.length = st.pending.length + 1) :
    (step h st ev).displayedSchoolsCount = SCHOOLS_PER_PAGE := by
  cases ev with
  | pageLoad => rfl
  | search => rfl
  | footerCity _ => rfl
  | typeSearch _ => simp [step] at hstart
  | pickCity _ => simp [step] at hstart
  | pickBoard _ => simp [step] at hstart
  | pickType _ => simp [step] at hstart
  | otherError _ => simp [step, showError] at hstart
  | reset =>
    simp only [step, resetFilters] at hstart ⊢
    cases hs : st.sortFilter with
    | none => rw [hs] at hstart; simp at hstart
    | some _ => rfl
  | showMore =>
    simp only [step] at hstart
    split at hstart
    · simp only [showMoreClick, (displaySchools_frame h _ _).2.2] at hstart
      omega
    · omega
  | sortChange v =>
    simp only [step, sortChange] at hstart
    cases hs : st.sortFilter with
    | none => rw [hs] at hstart; simp at hstart
    | some _ =>
      rw [hs] at hstart
      simp only at hstart
      split at hstart
      · simp at hstart
      · simp only [(displaySchools_frame h _ _).2.2] at hstart
        omega
  | fetchDone i r =>
    simp only [step] at hstart
    split at hstart
    · omega
    · next p hp =>
      have hlt : i < st.pending.length := by
        by_contra hge
        rw [List.getElem?_eq_none (Nat.le_of_not_lt hge)] at hp
        exact absurd hp (by simp)
      have hlen : (st.pending.eraseIdx i).length = st.pending.length - 1 := by
        rw [List.length_eraseIdx, if_pos hlt]
      unfold settle at hstart
      split at hstart
      · simp only [showError] at hstart; omega
      · split at hstart
        · simp only [showError] at hstart; omega
        · simp only [(displaySchools_frame h _ _).2.2] at hstart; omega

theorem fetchDone_keeps_window (h : Host) (st : AppState) (i : Nat) (r : Response) :
    (step h st (.fetchDone i r)).displayedSchoolsCount = st.displayedSchoolsCount := by
  simp only [step]
  split
  · rfl
  · unfold settle
    split
    · rfl
    · split
      · rfl
      · rw [(displaySchools_frame h _ _).2.1]

/-- C5 (amended): the page window is set to 6 when a load-all or search begins; from
then on it is 6 after every sequence of events that holds no Show More click, so a fetch
that settles then (and stores its list) finds and leaves the page window at 6.  In every
state, whatever the window is, settling a fetch leaves the page window as it was. -/
theorem pageWindow_six_without_showMore (h : Host) (st : AppState) (ev : Event)
    (evs : List Event) (i : Nat) (r : Response)
    (hstart : (step h st ev).pending.length = st.pending.length + 1)
    (hno : Event.showMore ∉ evs) :
    (step h st ev).displayedSchoolsCount = 6 ∧
    (run h (step h st ev) evs).displayedSchoolsCount = 6 ∧
    (step h (run h (step h st ev) evs) (.fetchDone i r)).displayedSchoolsCount = 6 ∧
    (∀ (st1 : AppState) (j : Nat) (r1 : Response),
      (step h st1 (.fetchDone j r1)).displayedSchoolsCount = st1.displayedSchoolsCount) := by
  have h1 := pending_grows_window h st ev hstart
  have h2 := run_keeps_window h evs hno _ h1
  exact ⟨h1, h2, step_keeps_window h _ (.fetchDone i r) (by simp) h2,
    fun st1 j r1 => fetchDone_keeps_window h st1 j r1⟩

/-- A search, a change of the sort key while it is in flight, and its eight records
stored with a page window of 6; in the race, the settling search finds a window of 12
and leaves it at 12. -/
theorem pageWindow_six_without_showMore_witness :
    (step sampleHost oneSchoolLoading .search).pending.length =
      oneSchoolLoading.pending.length + 1 ∧
    Event.showMore ∉ [Event.sortChange "rating", Event.fetchDone 0 (.http 404 none)] ∧
    (step sampleHost (run sampleHost (step sampleHost oneSchoolLoading .search)
        [.sortChange "rating", .fetchDone 0 (.http 404 none)])
      (.fetchDone 0 eightResponse)).currentSchools = eightSchools ∧
    (step sampleHost oneSchoolLoading .search).displayedSchoolsCount = 6 ∧
    (run sampleHost (step sampleHost oneSchoolLoading .search)
      [.sortChange "rating", .fetchDone 0 (.http 404 none)]).displayedSchoolsCount = 6 ∧
    (step sampleHost (run sampleHost (step sampleHost oneSchoolLoading .search)
        [.sortChange "rating", .fetchDone 0 (.http 404 none)])
      (.fetchDone 0 eightResponse)).displayedSchoolsCount = 6 ∧
    (run sampleHost initialState raceTrace).displayedSchoolsCount = 12 ∧
    (step sampleHost (run sampleHost initialState raceTrace)
      (.fetchDone 0 eightResponse)).displayedSchoolsCount =
      (run sampleHost initialState raceTrace).displayedSchoolsCount := by
  obtain ⟨h1, h2, h3, h4⟩ := pageWindow_six_without_showMore sampleHost oneSchoolLoading
    .search [.sortChange "rating", .fetchDone 0 (.http 404 none)] 0 eightResponse (by rfl)
    (by decide)
  exact ⟨by rfl, by decide, by rfl, h1, h2, h3, by rfl,
    h4 (run sampleHost initialState raceTrace) 0 eightResponse⟩

end SchoolFinder
